import Mathlib

/-!
Shallow embedding of the watershed delineation engine of the hydro-map
repository (backend/app/services/watershed.py and backend/app/services/cache.py),
together with theorems settling the frozen claims about it.

Machine floats of the Python code are modelled as exact numbers:
grid cell values (D8 codes, flow accumulation) as integers, geographic
coordinates as rationals where only finite data flows through them and as
real numbers where trigonometry is involved.  A two dimensional numpy array
is modelled as a list of rows.
-/

namespace HydroMap

/-! ## D8 flow-direction tables (trace_watershed_d8, watershed.py lines 305-327)

The Python dict d8_lookup maps a direction code to the (row_offset, col_offset)
of the neighbor in that direction; Python dicts iterate in insertion order, so
the table is kept as a list in the same order.  reverse_lookup maps a direction
code to the code a neighbor in that direction must hold to drain into the
current cell; dict.get is modelled by an Option result. -/

def d8_lookup : List (Int × Int × Int) :=
  [(1, 0, 1),     -- E
   (2, 1, 1),     -- SE
   (4, 1, 0),     -- S
   (8, 1, -1),    -- SW
   (16, 0, -1),   -- W
   (32, -1, -1),  -- NW
   (64, -1, 0),   -- N
   (128, -1, 1)]  -- NE

def reverse_lookup (d : Int) : Option Int :=
  if d = 1 then some 16        -- E flows from W
  else if d = 2 then some 32   -- SE flows from NW
  else if d = 4 then some 64   -- S flows from N
  else if d = 8 then some 128  -- SW flows from NE
  else if d = 16 then some 1   -- W flows from E
  else if d = 32 then some 2   -- NW flows from SE
  else if d = 64 then some 4   -- N flows from S
  else if d = 128 then some 8  -- NE flows from SW
  else none

/-- Offset of the downslope neighbor selected by a direction code (lookup in
the d8_lookup table); none for a code that is not one of the 8 D8 values. -/
def d8Offset (code : Int) : Option (Int × Int) :=
  (d8_lookup.find? (fun e => e.1 == code)).map (fun e => e.2)

/-! ## Grid access -/

/-- Cell read flow_dir[r, c] on a list-of-rows grid; out-of-range reads return
a junk default (the traced code always bounds-checks before reading). -/
def fget (g : List (List Int)) (r c : Nat) : Int :=
  ((g.get? r).bind (fun row => row.get? c)).getD 0

/-- Number of rows of the grid, as in flow_dir.shape. -/
def numRows (g : List (List Int)) : Nat := g.length

/-- Number of columns of the grid, as in flow_dir.shape (rows of a numpy
2-D array all have this length). -/
def numCols (g : List (List Int)) : Nat := (g.head?.getD []).length

/-- The test `nodata is not None and flow_dir[nr, nc] == nodata`. -/
def isNodata (nodata : Option Int) (v : Int) : Bool :=
  match nodata with
  | some nd => v == nd
  | none => false

/-! ## The BFS of trace_watershed_d8 (watershed.py lines 329-358)

The boolean `watershed` array is modelled as the finite set of cells that are
True; `watershed[nr, nc]` is membership, `watershed[nr, nc] = True` is insert.
The deque is a list popped at the head and appended at the tail.

The loop carries two ghost histories that do not influence the computation:
`dlog` records every cell dequeued, `log` records every cell enqueued, in
order.  The loop is written on fuel; trace_watershed_d8 runs it with fuel
2*rows*cols+1, which is proved sufficient below. -/

/-- Body of `for direction, (dr, dc) in d8_lookup.items()` for one direction
entry: bounds check, visited check, nodata check, reverse-direction check,
then mark and enqueue. -/
def visitStep (g : List (List Int)) (rows cols : Nat) (nodata : Option Int)
    (r c : Nat) (st : Finset (Nat × Nat) × List (Nat × Nat))
    (e : Int × Int × Int) : Finset (Nat × Nat) × List (Nat × Nat) :=
  let nr : Int := (r : Int) + e.2.1
  let nc : Int := (c : Int) + e.2.2
  if nr < 0 ∨ (rows : Int) ≤ nr ∨ nc < 0 ∨ (cols : Int) ≤ nc then st
  else
    let np := (nr.toNat, nc.toNat)
    if np ∈ st.1 then st
    else if isNodata nodata (fget g np.1 np.2) then st
    else if reverse_lookup e.1 = some (fget g np.1 np.2) then
      (insert np st.1, st.2 ++ [np])
    else st

/-- Check all 8 neighbors of a dequeued cell, returning the grown mask and the
list of newly enqueued cells. -/
def visitNeighbors (g : List (List Int)) (rows cols : Nat) (nodata : Option Int)
    (r c : Nat) (mask : Finset (Nat × Nat)) :
    Finset (Nat × Nat) × List (Nat × Nat) :=
  d8_lookup.foldl (visitStep g rows cols nodata r c) (mask, [])

/-- The `while queue:` loop.  Returns none only when the fuel runs out. -/
def bfsLoop (g : List (List Int)) (rows cols : Nat) (nodata : Option Int) :
    Nat → Finset (Nat × Nat) → List (Nat × Nat) → List (Nat × Nat) →
    List (Nat × Nat) → Option (Finset (Nat × Nat) × List (Nat × Nat) × List (Nat × Nat))
  | 0, _, _, _, _ => none
  | _ + 1, mask, [], dlog, log => some (mask, dlog, log)
  | fuel + 1, mask, p :: rest, dlog, log =>
    let st := visitNeighbors g rows cols nodata p.1 p.2 mask
    bfsLoop g rows cols nodata fuel st.1 (rest ++ st.2) (dlog ++ [p]) (log ++ st.2)

/-- Render the set of marked cells as the 0/1 grid returned by
`watershed.astype(np.uint8)`. -/
def renderMask (rows cols : Nat) (mask : Finset (Nat × Nat)) : List (List Nat) :=
  (List.range rows).map (fun r => (List.range cols).map (fun c => if (r, c) ∈ mask then 1 else 0))

/-- trace_watershed_d8 (watershed.py lines 289-358): mark the outlet, BFS
upstream, return the binary mask. -/
def trace_watershed_d8 (g : List (List Int)) (outlet_row outlet_col : Nat)
    (nodata : Option Int) : List (List Nat) :=
  let rows := numRows g
  let cols := numCols g
  match bfsLoop g rows cols nodata (2 * rows * cols + 1)
      {(outlet_row, outlet_col)} [(outlet_row, outlet_col)] []
      [(outlet_row, outlet_col)] with
  | some (mask, _, _) => renderMask rows cols mask
  | none => renderMask rows cols {(outlet_row, outlet_col)}

/-- Read of a cell of the returned 0/1 mask. -/
def maskGet (m : List (List Nat)) (r c : Nat) : Nat :=
  ((m.get? r).bind (fun row => row.get? c)).getD 0

/-! ## Specification-side notions for the trace: directed D8 paths -/

/-- Cell p drains directly into cell q: the D8 offset selected by the flow
direction code stored at p leads from p to q. -/
def flowsTo (g : List (List Int)) (p q : Nat × Nat) : Prop :=
  ∃ o, d8Offset (fget g p.1 p.2) = some o ∧
    (p.1 : Int) + o.1 = q.1 ∧ (p.2 : Int) + o.2 = q.2

/-- A directed D8 path from a cell to the outlet that passes only through
cells satisfying inMask: each step follows the flow-direction code of the
current cell to its downslope neighbor. -/
inductive FlowPath (g : List (List Int)) (inMask : Nat × Nat → Prop)
    (outlet : Nat × Nat) : Nat × Nat → Prop
  | outlet_mem : inMask outlet → FlowPath g inMask outlet outlet
  | step (p q : Nat × Nat) : inMask p → flowsTo g p q →
      FlowPath g inMask outlet q → FlowPath g inMask outlet p

/-- Invariant carried through the BFS loop: marked cells are in bounds,
queued cells are marked, the enqueue history equals the dequeue history
followed by the live queue, no cell was enqueued twice, the enqueue history
enumerates the mask, and every marked cell has a D8 path to the outlet
through marked cells. -/
structure BfsInv (g : List (List Int)) (rows cols : Nat) (outlet : Nat × Nat)
    (mask : Finset (Nat × Nat)) (queue dlog log : List (Nat × Nat)) : Prop where
  bounds : ∀ p ∈ mask, p.1 < rows ∧ p.2 < cols
  queueMask : ∀ p ∈ queue, p ∈ mask
  logEq : log = dlog ++ queue
  logNodup : log.Nodup
  logMask : ∀ p, p ∈ log ↔ p ∈ mask
  path : ∀ p ∈ mask, FlowPath g (fun q => q ∈ mask) outlet p

/-! ## Pour-point snapping (_snap_pour_point_sync, watershed.py lines 113-221)

The raster accessor, affine transform and CRS reprojection are external
library collaborators; they enter the model as abstract data: the row/col of
the input point under the raster transform, the integer pixel radius computed
by calculate_snap_radius_pixels, and the cell-center-to-WGS84 map used for the
snapped coordinates.  Flow accumulation values are modelled as integers.  The
snap_distance_m metadata is computed by calculate_distance_meters, which is
modelled separately below over the reals. -/

structure SnapEnv where
  fileExists : Bool               -- Path(settings.FLOW_ACC_PATH).exists()
  height : Nat                    -- src.height
  width : Nat                     -- src.width
  grid : List (List Int)          -- band 1 of the flow-accumulation raster
  nodata : Option Int             -- src.nodata
  row : Int                       -- rowcol(src.transform, x, y) for the input point
  col : Int
  pixelRadius : Int               -- calculate_snap_radius_pixels(radius, ...)
  cellCenter : Nat → Nat → ℚ × ℚ -- src.xy composed with the CRS→WGS84 transform

/-- The fields of the returned GeoJSON feature that the claims concern:
geometry coordinates, snapped flag, reason, flow_accumulation. -/
structure SnapResult where
  lon : ℚ
  lat : ℚ
  snapped : Bool
  reason : Option String
  flow_accumulation : Option Int
  deriving DecidableEq

/-- row_min = max(0, row - pixel_radius). -/
def snapRowMin (env : SnapEnv) : Int := max 0 (env.row - env.pixelRadius)

/-- row_max = min(src.height, row + pixel_radius + 1). -/
def snapRowMax (env : SnapEnv) : Int := min (env.height : Int) (env.row + env.pixelRadius + 1)

/-- col_min = max(0, col - pixel_radius). -/
def snapColMin (env : SnapEnv) : Int := max 0 (env.col - env.pixelRadius)

/-- col_max = min(src.width, col + pixel_radius + 1). -/
def snapColMax (env : SnapEnv) : Int := min (env.width : Int) (env.col + env.pixelRadius + 1)

/-- The windowed read src.read(1, window=Window(col_min, row_min,
col_max-col_min, row_max-row_min)): rows rMin..rMax, columns cMin..cMax. -/
def windowRead (grid : List (List Int)) (rMin rMax cMin cMax : Int) : List (List Int) :=
  ((grid.drop rMin.toNat).take (rMax - rMin).toNat).map
    (fun row => (row.drop cMin.toNat).take (cMax - cMin).toNat)

/-- The window actually read by the snapper. -/
def snapWindow (env : SnapEnv) : List (List Int) :=
  windowRead env.grid (snapRowMin env) (snapRowMax env) (snapColMin env) (snapColMax env)

/-- flow_acc.size. -/
def windowSize (w : List (List Int)) : Nat := (w.map List.length).sum

/-- np.all(flow_acc == src.nodata): elementwise comparison against the nodata
sentinel; comparing against an absent sentinel (None) yields False. -/
def allNodata (w : List (List Int)) (nodata : Option Int) : Bool :=
  match nodata with
  | some nd => w.all (fun row => row.all (fun v => v == nd))
  | none => false

/-- Linear scan of np.ma.argmax over the flattened masked array: the index of
the maximum unmasked value, keeping the first index on ties. -/
def maArgmaxGo (valid : Int → Bool) : List Int → Nat → Option (Nat × Int) → Option (Nat × Int)
  | [], _, best => best
  | v :: rest, i, best =>
    maArgmaxGo valid rest (i + 1)
      (if valid v then
        match best with
        | none => some (i, v)
        | some (bi, bv) => if bv < v then some (i, v) else some (bi, bv)
      else best)

/-- np.ma.argmax on the flattened window (row-major order). -/
def maArgmax (valid : Int → Bool) (flat : List Int) : Nat :=
  ((maArgmaxGo valid flat 0 none).map Prod.fst).getD 0

/-- Number of columns of the window, for np.unravel_index. -/
def wCols (w : List (List Int)) : Nat := (w.head?.getD []).length

/-- Cell read on the window (row-major 2-D access). -/
def wGet (w : List (List Int)) (r c : Nat) : Option Int :=
  (w.get? r).bind (fun row => row.get? c)

/-- _snap_pour_point_sync: early return when the flow-accumulation file is
absent; windowed read around the point; early return when the window is empty
or entirely nodata; otherwise masked argmax, unravel to (row, col) in the
window, offset by the window origin, and convert the cell center back to
WGS84. -/
def snap_pour_point_sync (env : SnapEnv) (lat lon : ℚ) : SnapResult :=
  if env.fileExists = false then
    ⟨lon, lat, false, some "Flow accumulation file not found", none⟩
  else
    let flow_acc := snapWindow env
    if windowSize flow_acc = 0 ∨ allNodata flow_acc env.nodata then
      ⟨lon, lat, false, some "No valid flow accumulation data in search radius", none⟩
    else
      let maxIdx := maArgmax (fun v => !(isNodata env.nodata v)) flow_acc.flatten
      let mr := maxIdx / wCols flow_acc
      let mc := maxIdx % wCols flow_acc
      let snapped_row := (snapRowMin env).toNat + mr
      let snapped_col := (snapColMin env).toNat + mc
      let sp := env.cellCenter snapped_row snapped_col
      ⟨sp.1, sp.2, true, none, wGet flow_acc mr mc⟩

/-! ## Snap radius in pixels (calculate_snap_radius_pixels, watershed.py 52-77)

The latitude correction goes through cosine, so this part of the model lives
over the reals; Python int() truncates toward zero. -/

/-- Python int() applied to a real: truncation toward zero. -/
noncomputable def pythonIntTrunc (x : ℝ) : ℤ :=
  if 0 ≤ x then ⌊x⌋ else -⌊-x⌋

/-- calculate_snap_radius_pixels: degrees-per-meter correction at the center
latitude for a geographic CRS, direct division for a projected CRS, then
max(1, pixel_radius). -/
noncomputable def calculate_snap_radius_pixels (radius_meters : ℤ) (isWgs84 : Bool)
    (center_lat : ℝ) (pixel_size : ℝ × ℝ) : ℤ :=
  if isWgs84 then
    let meters_per_degree : ℝ := 111320 * Real.cos (center_lat * Real.pi / 180)
    let radius_degrees : ℝ := (radius_meters : ℝ) / meters_per_degree
    let pixel_radius := pythonIntTrunc (radius_degrees / min pixel_size.1 |pixel_size.2|)
    max 1 pixel_radius
  else
    let pixel_radius := pythonIntTrunc ((radius_meters : ℝ) / min |pixel_size.1| |pixel_size.2|)
    max 1 pixel_radius

/-! ## Snap distance (calculate_distance_meters, watershed.py lines 80-103)

The code builds two one-point GeoDataFrames, reprojects both to EPSG:6933 and
returns the planar Euclidean distance between the projected points.  The
EPSG:6933 forward transform of the projection library is modelled in its
spherical form: the cylindrical equal-area projection with standard parallel
30 degrees on the WGS84 equatorial radius 6378137, x = R·λ·cos 30°,
y = R·sin φ / cos 30° with λ, φ in radians. -/

noncomputable def epsg6933Project (lon lat : ℝ) : ℝ × ℝ :=
  (6378137 * (lon * Real.pi / 180) * Real.cos (Real.pi / 6),
   6378137 * Real.sin (lat * Real.pi / 180) / Real.cos (Real.pi / 6))

/-- calculate_distance_meters: project both WGS84 points to EPSG:6933 and take
the planar Euclidean distance of the projected points. -/
noncomputable def calculate_distance_meters (lon1 lat1 lon2 lat2 : ℝ) : ℝ :=
  Real.sqrt
    (((epsg6933Project lon2 lat2).1 - (epsg6933Project lon1 lat1).1) ^ 2 +
     ((epsg6933Project lon2 lat2).2 - (epsg6933Project lon1 lat1).2) ^ 2)

/-- Modelled from the spec: the true great-circle (haversine) distance in
meters between two WGS84 points, on the same sphere radius 6378137 used by
the projection model, with degrees converted to radians. -/
noncomputable def haversineDistanceSpec (lon1 lat1 lon2 lat2 : ℝ) : ℝ :=
  2 * 6378137 * Real.arcsin (Real.sqrt
    (Real.sin ((lat2 * Real.pi / 180 - lat1 * Real.pi / 180) / 2) ^ 2 +
     Real.cos (lat1 * Real.pi / 180) * Real.cos (lat2 * Real.pi / 180) *
       Real.sin ((lon2 * Real.pi / 180 - lon1 * Real.pi / 180) / 2) ^ 2))

/-! ## Result cache (cache.py)

JSON documents are modelled by an inductive value type; json.dump followed by
json.load restores an equal document for JSON-serializable input, so the
modelled file system stores the document itself.  A cache-directory state is
the listing of the directory: (file stem, file extension) paired with the
parsed content; the cache file of a key is named by the hex digest of the key
with extension json, and clear() unlinks exactly the files the *.json glob
matches. -/

inductive Json where
  | null
  | bool (b : Bool)
  | num (q : ℚ)
  | str (s : String)
  | arr (elems : List Json)
  | obj (fields : List (String × Json))

/-- Listing of the cache directory: file name as (stem, extension), with the
parsed JSON content of the file. -/
def CacheDirState : Type := List ((String × String) × Json)

/-- _cache_file_path: base_dir / (md5 hex digest of the key).json, as a
(stem, extension) name; the digest function is an abstract parameter. -/
def cache_file_name (md5hex : String → String) (cache_key : String) : String × String :=
  (md5hex cache_key, "json")

/-- FileCacheBackend.get: none when the cache file does not exist, otherwise
the parsed content. -/
def fileCacheGet (md5hex : String → String) (fs : CacheDirState)
    (cache_key : String) : Option Json :=
  (fs.find? (fun e => e.1 = cache_file_name md5hex cache_key)).map (fun e => e.2)

/-- FileCacheBackend.set: write (create or overwrite) the cache file. -/
def fileCacheSet (md5hex : String → String) (fs : CacheDirState)
    (cache_key : String) (value : Json) : CacheDirState :=
  (cache_file_name md5hex cache_key, value) ::
    fs.filter (fun e => !(e.1 = cache_file_name md5hex cache_key : Bool))

/-- FileCacheBackend.clear: unlink every file matched by glob("*.json"). -/
def fileCacheClear (fs : CacheDirState) : CacheDirState :=
  fs.filter (fun e => !(e.1.2 = "json" : Bool))

/-- get_cached_watershed: short-circuit to a miss when caching is disabled. -/
def get_cached_watershed (cacheEnabled : Bool) (md5hex : String → String)
    (fs : CacheDirState) (cache_key : String) : Option Json :=
  if cacheEnabled = false then none else fileCacheGet md5hex fs cache_key

/-- cache_watershed: no-op when caching is disabled. -/
def cache_watershed (cacheEnabled : Bool) (md5hex : String → String)
    (fs : CacheDirState) (cache_key : String) (result : Json) : CacheDirState :=
  if cacheEnabled = false then fs else fileCacheSet md5hex fs cache_key result

/-- clear_cache: no-op when caching is disabled. -/
def clear_cache (cacheEnabled : Bool) (fs : CacheDirState) : CacheDirState :=
  if cacheEnabled = false then fs else fileCacheClear fs

/-! ## Error containment of the cache backends (cache.py lines 41-58, 94-111)

Fallible I/O primitives are modelled as Except values injected as parameters;
a Python try/except whose handler logs and yields a fallback value is the
pyTry combinator. -/

/-- try: body; except Exception: return fallback. -/
def pyTry {α : Type} (body : Except String α) (fallback : α) : Except String α :=
  match body with
  | Except.ok a => Except.ok a
  | Except.error _ => Except.ok fallback

/-- FileCacheBackend.get with fallible read: the exists() check, then
_read_json inside try/except returning None on failure. -/
def fileCacheGetEx (existsB : Bool) (readOp : Except String Json) :
    Except String (Option Json) :=
  if existsB = false then Except.ok none
  else pyTry (readOp.map some) none

/-- FileCacheBackend.set with fallible directory creation and write: first
cache_file.parent.mkdir(parents=True, exist_ok=True), which sits OUTSIDE the
try/except so its failure propagates; then _write_json inside try/except that
logs and passes. -/
def fileCacheSetEx (mkdirOp : Except String Unit) (writeOp : Except String Unit) :
    Except String Unit :=
  match mkdirOp with
  | Except.error e => Except.error e
  | Except.ok _ => pyTry writeOp ()

/-- RedisCacheBackend.get: the client get is NOT inside any try/except, so a
raised client error propagates; only json.loads is guarded, against
JSONDecodeError, returning None. -/
def redisCacheGetEx (clientGet : Except String (Option String))
    (jsonLoads : String → Except String Json) : Except String (Option Json) :=
  match clientGet with
  | Except.error e => Except.error e
  | Except.ok none => Except.ok none
  | Except.ok (some raw) => pyTry ((jsonLoads raw).map some) none

/-- RedisCacheBackend.set: json.dumps then client set, with no try/except. -/
def redisCacheSetEx (clientSet : Except String Unit) : Except String Unit :=
  clientSet

end HydroMap

namespace HydroMap

/-! ## Theorems about the upstream trace -/

/-- The reverse-direction table is correct with respect to the offset table:
for every entry of d8_lookup, the code a neighbor must hold points back along
the negated offset. -/
theorem reverse_lookup_offset :
    ∀ e ∈ d8_lookup, (reverse_lookup e.1).bind d8Offset = some (-e.2.1, -e.2.2) := by
  decide

theorem FlowPath.mono {g : List (List Int)} {A B : Nat × Nat → Prop}
    {outlet p : Nat × Nat} (hAB : ∀ q, A q → B q)
    (h : FlowPath g A outlet p) : FlowPath g B outlet p := by
  induction h with
  | outlet_mem h => exact .outlet_mem (hAB _ h)
  | step p q hp hf _ ih => exact .step p q (hAB _ hp) hf ih

/-- One direction entry of the neighbor loop either leaves the state alone or
marks and enqueues a single fresh, in-bounds cell that drains into (r, c). -/
theorem visitStep_cases (g : List (List Int)) (rows cols : Nat)
    (nodata : Option Int) (r c : Nat)
    (st : Finset (Nat × Nat) × List (Nat × Nat)) (e : Int × Int × Int)
    (he : e ∈ d8_lookup) :
    visitStep g rows cols nodata r c st e = st ∨
    ∃ np, np ∉ st.1 ∧ np.1 < rows ∧ np.2 < cols ∧ flowsTo g np (r, c) ∧
      visitStep g rows cols nodata r c st e = (insert np st.1, st.2 ++ [np]) := by
  unfold visitStep
  by_cases hb : ((r : Int) + e.2.1 < 0 ∨ (rows : Int) ≤ (r : Int) + e.2.1 ∨
      (c : Int) + e.2.2 < 0 ∨ (cols : Int) ≤ (c : Int) + e.2.2)
  · simp only [hb, if_true]
    exact Or.inl trivial
  · simp only [hb, if_false]
    push_neg at hb
    obtain ⟨h1, h2, h3, h4⟩ := hb
    set np := (((r : Int) + e.2.1).toNat, ((c : Int) + e.2.2).toNat) with hnp
    by_cases hm : np ∈ st.1
    · simp only [hm, if_true]
      exact Or.inl trivial
    · simp only [hm, if_false]
      by_cases hnd : isNodata nodata (fget g np.1 np.2)
      · simp only [hnd, if_true]
        exact Or.inl trivial
      · simp only [hnd, Bool.false_eq_true, if_false]
        by_cases hrev : reverse_lookup e.1 = some (fget g np.1 np.2)
        · simp only [hrev, if_true]
          refine Or.inr ⟨np, hm, ?_, ?_, ?_, rfl⟩
          · have : ((r : Int) + e.2.1).toNat < rows := by omega
            simpa [hnp] using this
          · have : ((c : Int) + e.2.2).toNat < cols := by omega
            simpa [hnp] using this
          · have hro := reverse_lookup_offset e he
            rw [hrev] at hro
            simp only [Option.bind_some] at hro
            refine ⟨(-e.2.1, -e.2.2), hro, ?_, ?_⟩
            · simp only [hnp]
              omega
            · simp only [hnp]
              omega
        · simp only [hrev, if_false]
          exact Or.inl trivial

/-- Folding the neighbor check over any sublist of the direction table grows
the mask by a duplicate-free list of fresh, in-bounds cells that drain into
(r, c), and appends exactly those cells to the pending-enqueue list. -/
theorem foldl_visitStep_spec (g : List (List Int)) (rows cols : Nat)
    (nodata : Option Int) (r c : Nat) :
    ∀ (L : List (Int × Int × Int)), (∀ e ∈ L, e ∈ d8_lookup) →
    ∀ (st : Finset (Nat × Nat) × List (Nat × Nat)),
    ∃ news : List (Nat × Nat),
      L.foldl (visitStep g rows cols nodata r c) st =
        (st.1 ∪ news.toFinset, st.2 ++ news) ∧
      news.Nodup ∧
      ∀ p ∈ news, p ∉ st.1 ∧ p.1 < rows ∧ p.2 < cols ∧ flowsTo g p (r, c) := by
  intro L
  induction L with
  | nil =>
    intro _ st
    exact ⟨[], by simp, List.nodup_nil, by simp⟩
  | cons e L ih =>
    intro hL st
    have he : e ∈ d8_lookup := hL e (List.mem_cons_self e L)
    have hL' : ∀ x ∈ L, x ∈ d8_lookup := fun x hx => hL x (List.mem_cons_of_mem e hx)
    rcases visitStep_cases g rows cols nodata r c st e he with hstep | ⟨np, hfresh, hr, hc, hflow, hstep⟩
    · obtain ⟨news, heq, hnd, hprops⟩ := ih hL' st
      refine ⟨news, ?_, hnd, hprops⟩
      simpa [List.foldl_cons, hstep] using heq
    · obtain ⟨news, heq, hnd, hprops⟩ := ih hL' (insert np st.1, st.2 ++ [np])
      refine ⟨np :: news, ?_, ?_, ?_⟩
      · rw [List.foldl_cons, hstep, heq]
        simp only [Prod.mk.injEq]
        constructor
        · simp only [List.toFinset_cons]
          ext a
          simp only [Finset.mem_union, Finset.mem_insert, List.mem_toFinset]
          tauto
        · simp
      · refine List.Nodup.cons ?_ hnd
        intro hmem
        exact (hprops np hmem).1 (Finset.mem_insert_self np st.1)
      · intro p hp
        rcases List.mem_cons.mp hp with hp | hp
        · subst hp
          exact ⟨hfresh, hr, hc, hflow⟩
        · obtain ⟨h1, h2, h3, h4⟩ := hprops p hp
          refine ⟨fun hin => h1 (Finset.mem_insert_of_mem hin), h2, h3, h4⟩

/-- A mask of in-bounds cells has at most rows*cols cells. -/
theorem mask_card_le (rows cols : Nat) (mask : Finset (Nat × Nat))
    (hb : ∀ p ∈ mask, p.1 < rows ∧ p.2 < cols) : mask.card ≤ rows * cols := by
  have hsub : mask ⊆ Finset.range rows ×ˢ Finset.range cols := by
    intro p hp
    obtain ⟨h1, h2⟩ := hb p hp
    simp only [Finset.mem_product, Finset.mem_range]
    exact ⟨h1, h2⟩
  calc mask.card ≤ (Finset.range rows ×ˢ Finset.range cols).card :=
        Finset.card_le_card hsub
    _ = rows * cols := by simp [Finset.card_product]

/-- Adding a duplicate-free list of fresh cells to a mask grows its
cardinality by the length of the list. -/
theorem card_union_fresh (m : Finset (Nat × Nat)) (news : List (Nat × Nat))
    (hnd : news.Nodup) (hf : ∀ p ∈ news, p ∉ m) :
    (m ∪ news.toFinset).card = m.card + news.length := by
  have hdis : Disjoint m news.toFinset := by
    rw [Finset.disjoint_left]
    intro a ha hb
    exact hf a (List.mem_toFinset.mp hb) ha
  rw [Finset.card_union_of_disjoint hdis, List.toFinset_card_of_nodup hnd]

/-- Main loop lemma: from any state satisfying the invariant, with fuel
exceeding twice the number of unmarked cells plus the queue length, the BFS
loop terminates with an empty queue, preserves the invariant, and has dequeued
exactly the cells it enqueued. -/
theorem bfsLoop_spec (g : List (List Int)) (rows cols : Nat)
    (nodata : Option Int) (outlet : Nat × Nat) :
    ∀ (fuel : Nat) (mask : Finset (Nat × Nat)) (queue dlog log : List (Nat × Nat)),
      BfsInv g rows cols outlet mask queue dlog log →
      2 * (rows * cols - mask.card) + queue.length < fuel →
      ∃ maskF dlogF logF,
        bfsLoop g rows cols nodata fuel mask queue dlog log = some (maskF, dlogF, logF) ∧
        BfsInv g rows cols outlet maskF [] dlogF logF ∧ dlogF = logF ∧ mask ⊆ maskF := by
  intro fuel
  induction fuel with
  | zero => intro mask queue dlog log _ hfuel; omega
  | succ fuel ih =>
    intro mask queue dlog log hinv hfuel
    match queue with
    | [] =>
      refine ⟨mask, dlog, log, rfl, ?_, ?_, Finset.Subset.refl mask⟩
      · exact ⟨hinv.bounds, by simp, hinv.logEq, hinv.logNodup, hinv.logMask, hinv.path⟩
      · have := hinv.logEq
        simpa using this.symm
    | p :: rest =>
      obtain ⟨news, heq, hnd, hprops⟩ :=
        foldl_visitStep_spec g rows cols nodata p.1 p.2 d8_lookup (fun e he => he) (mask, [])
      have hpmask : p ∈ mask := hinv.queueMask p (List.mem_cons_self p rest)
      have hvn : visitNeighbors g rows cols nodata p.1 p.2 mask =
          (mask ∪ news.toFinset, news) := by
        simpa [visitNeighbors] using heq
      have hsub : mask ⊆ mask ∪ news.toFinset := Finset.subset_union_left
      have hmono : ∀ q : Nat × Nat, q ∈ mask → q ∈ mask ∪ news.toFinset :=
        fun q hq => hsub hq
      have hnewmem : ∀ q ∈ news, q ∈ mask ∪ news.toFinset := by
        intro q hq
        exact Finset.mem_union_right mask (List.mem_toFinset.mpr hq)
      have hcard : (mask ∪ news.toFinset).card = mask.card + news.length :=
        card_union_fresh mask news hnd (fun q hq => (hprops q hq).1)
      have hinv' : BfsInv g rows cols outlet (mask ∪ news.toFinset)
          (rest ++ news) (dlog ++ [p]) (log ++ news) := by
        refine ⟨?_, ?_, ?_, ?_, ?_, ?_⟩
        · intro q hq
          rcases Finset.mem_union.mp hq with hq | hq
          · exact hinv.bounds q hq
          · obtain ⟨_, h2, h3, _⟩ := hprops q (List.mem_toFinset.mp hq)
            exact ⟨h2, h3⟩
        · intro q hq
          rcases List.mem_append.mp hq with hq | hq
          · exact hmono q (hinv.queueMask q (List.mem_cons_of_mem p hq))
          · exact hnewmem q hq
        · rw [hinv.logEq]
          simp
        · refine List.Nodup.append hinv.logNodup hnd ?_
          intro a ha hb
          exact (hprops a hb).1 ((hinv.logMask a).mp ha)
        · intro q
          rw [List.mem_append, hinv.logMask q, Finset.mem_union, List.mem_toFinset]
        · intro q hq
          rcases Finset.mem_union.mp hq with hq | hq
          · exact (hinv.path q hq).mono hmono
          · have hflow := (hprops q (List.mem_toFinset.mp hq)).2.2.2
            exact FlowPath.step q p (hnewmem q (List.mem_toFinset.mp hq)) hflow
              ((hinv.path p hpmask).mono hmono)
      have hle : (mask ∪ news.toFinset).card ≤ rows * cols :=
        mask_card_le rows cols _ hinv'.bounds
      have hfuel' : 2 * (rows * cols - (mask ∪ news.toFinset).card) +
          (rest ++ news).length < fuel := by
        rw [hcard, List.length_append]
        simp only [List.length_cons] at hfuel
        omega
      obtain ⟨maskF, dlogF, logF, hrun, hinvF, hdl, hsubF⟩ :=
        ih (mask ∪ news.toFinset) (rest ++ news) (dlog ++ [p]) (log ++ news) hinv' hfuel'
      refine ⟨maskF, dlogF, logF, ?_, hinvF, hdl, fun q hq => hsubF (hsub hq)⟩
      rw [bfsLoop]
      simp only [hvn]
      exact hrun

/-- Reading a cell of the rendered mask: 1 exactly on in-bounds marked cells. -/
theorem maskGet_renderMask (rows cols : Nat) (mask : Finset (Nat × Nat)) (r c : Nat) :
    maskGet (renderMask rows cols mask) r c =
      if r < rows ∧ c < cols ∧ (r, c) ∈ mask then 1 else 0 := by
  by_cases hr : r < rows
  · by_cases hc : c < cols
    · by_cases hm : (r, c) ∈ mask
      · simp [maskGet, renderMask, List.get?_eq_getElem?, List.getElem?_map,
          List.getElem?_range, hr, hc, hm]
      · simp [maskGet, renderMask, List.get?_eq_getElem?, List.getElem?_map,
          List.getElem?_range, hr, hc, hm]
    · have hnone : (List.range cols)[c]? = none := by
        apply List.getElem?_eq_none
        simpa using Nat.le_of_not_lt hc
      simp [maskGet, renderMask, List.get?_eq_getElem?, List.getElem?_map,
        List.getElem?_range, hr, hc, hnone]
  · have hnone : (List.range rows)[r]? = none := by
      apply List.getElem?_eq_none
      simpa using Nat.le_of_not_lt hr
    simp [maskGet, renderMask, List.get?_eq_getElem?, List.getElem?_map, hr, hnone]

/-- The invariant holds at loop entry: the outlet is marked and enqueued. -/
theorem bfsInv_init (g : List (List Int)) (rows cols outlet_row outlet_col : Nat)
    (hor : outlet_row < rows) (hoc : outlet_col < cols) :
    BfsInv g rows cols (outlet_row, outlet_col) {(outlet_row, outlet_col)}
      [(outlet_row, outlet_col)] [] [(outlet_row, outlet_col)] := by
  refine ⟨?_, ?_, by simp, by simp, ?_, ?_⟩
  · intro p hp
    rw [Finset.mem_singleton] at hp
    subst hp
    exact ⟨hor, hoc⟩
  · intro p hp
    rw [List.mem_singleton] at hp
    simp [hp]
  · intro p
    simp
  · intro p hp
    rw [Finset.mem_singleton] at hp
    subst hp
    exact FlowPath.outlet_mem (by simp)

/-- C1.  Containment of the traced watershed: every cell marked 1 in the mask
returned by trace_watershed_d8 admits a directed D8 path, each step following
the flow-direction code of the current cell to its downslope neighbor, from
that cell to the outlet, passing only through cells marked 1 in the mask. -/
theorem trace_watershed_d8_containment
    (g : List (List Int)) (outlet_row outlet_col : Nat) (nodata : Option Int)
    (hor : outlet_row < numRows g) (hoc : outlet_col < numCols g)
    (r c : Nat)
    (hmark : maskGet (trace_watershed_d8 g outlet_row outlet_col nodata) r c = 1) :
    FlowPath g
      (fun p => maskGet (trace_watershed_d8 g outlet_row outlet_col nodata) p.1 p.2 = 1)
      (outlet_row, outlet_col) (r, c) := by
  have hpos : 0 < numRows g * numCols g := Nat.mul_pos (by omega) (by omega)
  have hcard : ({(outlet_row, outlet_col)} : Finset (Nat × Nat)).card = 1 :=
    Finset.card_singleton _
  obtain ⟨maskF, dlogF, logF, hrun, hinvF, hdl, hsub⟩ :=
    bfsLoop_spec g (numRows g) (numCols g) nodata (outlet_row, outlet_col)
      (2 * numRows g * numCols g + 1) {(outlet_row, outlet_col)}
      [(outlet_row, outlet_col)] [] [(outlet_row, outlet_col)]
      (bfsInv_init g (numRows g) (numCols g) outlet_row outlet_col hor hoc)
      (by rw [hcard, Nat.mul_assoc]; simp only [List.length_singleton]; omega)
  have htr : trace_watershed_d8 g outlet_row outlet_col nodata =
      renderMask (numRows g) (numCols g) maskF := by
    simp only [trace_watershed_d8]
    rw [hrun]
  have hmem : ∀ p : Nat × Nat, p ∈ maskF ↔
      maskGet (trace_watershed_d8 g outlet_row outlet_col nodata) p.1 p.2 = 1 := by
    intro p
    rw [htr, maskGet_renderMask]
    constructor
    · intro hp
      have hb := hinvF.bounds p hp
      simp [hb.1, hb.2, hp]
    · intro h
      by_cases hcond : p.1 < numRows g ∧ p.2 < numCols g ∧ (p.1, p.2) ∈ maskF
      · exact hcond.2.2
      · simp [hcond] at h
  have hrc : (r, c) ∈ maskF := (hmem (r, c)).mpr hmark
  exact (hinvF.path (r, c) hrc).mono (fun q hq => (hmem q).mp hq)

/-- C2.  The 3x3 cross scenario: neighbors flowing into the central outlet
produce exactly the cross mask, corners excluded. -/
theorem trace_watershed_d8_cross_scenario :
    trace_watershed_d8 [[0, 4, 0], [1, 0, 16], [0, 64, 0]] 1 1 (some 0) =
      [[0, 1, 0], [1, 1, 1], [0, 1, 0]] := by decide

/-- C1 witness: in the 3x3 cross scenario, cell (0,1) is marked and therefore
has an in-mask D8 path to the outlet (1,1). -/
theorem trace_watershed_d8_containment_witness :
    FlowPath [[0, 4, 0], [1, 0, 16], [0, 64, 0]]
      (fun p => maskGet
        (trace_watershed_d8 [[0, 4, 0], [1, 0, 16], [0, 64, 0]] 1 1 (some 0)) p.1 p.2 = 1)
      (1, 1) (0, 1) :=
  trace_watershed_d8_containment [[0, 4, 0], [1, 0, 16], [0, 64, 0]] 1 1 (some 0)
    (by decide) (by decide) 0 1 (by decide)

/-- C3.  Termination and no double visitation: for an in-bounds outlet, the
BFS loop run with fuel 2*rows*cols+1 (as trace_watershed_d8 runs it) empties
its queue and returns, the enqueue history is duplicate-free (each cell is
enqueued at most once), and the dequeue history equals the enqueue history
(each cell is dequeued exactly once, so at most once). -/
theorem trace_watershed_d8_no_double_visit
    (g : List (List Int)) (outlet_row outlet_col : Nat) (nodata : Option Int)
    (hor : outlet_row < numRows g) (hoc : outlet_col < numCols g) :
    ∃ maskF dlogF logF,
      bfsLoop g (numRows g) (numCols g) nodata (2 * numRows g * numCols g + 1)
        {(outlet_row, outlet_col)} [(outlet_row, outlet_col)] []
        [(outlet_row, outlet_col)] = some (maskF, dlogF, logF) ∧
      logF.Nodup ∧ dlogF = logF := by
  have hpos : 0 < numRows g * numCols g := Nat.mul_pos (by omega) (by omega)
  have hcard : ({(outlet_row, outlet_col)} : Finset (Nat × Nat)).card = 1 :=
    Finset.card_singleton _
  obtain ⟨maskF, dlogF, logF, hrun, hinvF, hdl, _⟩ :=
    bfsLoop_spec g (numRows g) (numCols g) nodata (outlet_row, outlet_col)
      (2 * numRows g * numCols g + 1) {(outlet_row, outlet_col)}
      [(outlet_row, outlet_col)] [] [(outlet_row, outlet_col)]
      (bfsInv_init g (numRows g) (numCols g) outlet_row outlet_col hor hoc)
      (by rw [hcard, Nat.mul_assoc]; simp only [List.length_singleton]; omega)
  exact ⟨maskF, dlogF, logF, hrun, hinvF.logNodup, hdl⟩

/-- C3 witness: the 3x3 cross scenario terminates with a duplicate-free
enqueue history equal to the dequeue history. -/
theorem trace_watershed_d8_no_double_visit_witness :
    ∃ maskF dlogF logF,
      bfsLoop [[0, 4, 0], [1, 0, 16], [0, 64, 0]] 3 3 (some 0) (2 * 3 * 3 + 1)
        {(1, 1)} [(1, 1)] [] [(1, 1)] = some (maskF, dlogF, logF) ∧
      logF.Nodup ∧ dlogF = logF :=
  trace_watershed_d8_no_double_visit [[0, 4, 0], [1, 0, 16], [0, 64, 0]] 1 1 (some 0)
    (by decide) (by decide)


/-- Folding a function that leaves the accumulator unchanged on every element
of the list is the identity. -/
theorem foldl_id_of_fixed {α β : Type} (f : β → α → β) (L : List α) (b : β)
    (h : ∀ a ∈ L, f b a = b) : L.foldl f b = b := by
  induction L with
  | nil => rfl
  | cons e L ih =>
    rw [List.foldl_cons, h e (List.mem_cons_self e L)]
    exact ih (fun a ha => h a (List.mem_cons_of_mem e ha))

/-- If every in-bounds D8 neighbor of (r, c) holds the nodata value, the
neighbor sweep marks and enqueues nothing. -/
theorem visitNeighbors_all_nodata (g : List (List Int)) (rows cols : Nat)
    (nd : Int) (r c : Nat) (mask : Finset (Nat × Nat))
    (hnb : ∀ e ∈ d8_lookup,
      ((r : Int) + e.2.1 < 0 ∨ (rows : Int) ≤ (r : Int) + e.2.1 ∨
       (c : Int) + e.2.2 < 0 ∨ (cols : Int) ≤ (c : Int) + e.2.2) ∨
      fget g ((r : Int) + e.2.1).toNat ((c : Int) + e.2.2).toNat = nd) :
    visitNeighbors g rows cols (some nd) r c mask = (mask, []) := by
  unfold visitNeighbors
  apply foldl_id_of_fixed
  intro e he
  unfold visitStep
  by_cases hbb : ((r : Int) + e.2.1 < 0 ∨ (rows : Int) ≤ (r : Int) + e.2.1 ∨
      (c : Int) + e.2.2 < 0 ∨ (cols : Int) ≤ (c : Int) + e.2.2)
  · simp only [hbb, if_true]
  · simp only [hbb, if_false]
    rcases hnb e he with hb | hval
    · exact absurd hb hbb
    · by_cases hm : (((r : Int) + e.2.1).toNat, ((c : Int) + e.2.2).toNat) ∈ (mask, ([] : List (Nat × Nat))).1
      · simp only [hm, if_true]
      · have hnd : isNodata (some nd)
            (fget g (((r : Int) + e.2.1).toNat, ((c : Int) + e.2.2).toNat).1
              (((r : Int) + e.2.1).toNat, ((c : Int) + e.2.2).toNat).2) = true := by
          simp [isNodata, hval]
        simp only [hm, if_false, hnd, if_true]

/-- C4 counterexample: the 3x3 cross grid has outlet value 0 equal to the
nodata value 0, yet the trace marks the four upstream neighbors as well, so
the returned mask is not the one-cell outlet mask. -/
theorem trace_watershed_d8_nodata_outlet_counterexample :
    trace_watershed_d8 [[0, 4, 0], [1, 0, 16], [0, 64, 0]] 1 1 (some 0) ≠
      [[0, 0, 0], [0, 1, 0], [0, 0, 0]] := by decide

/-- C4 amended: for an in-bounds outlet whose own value is nodata, the trace
does not fail and always marks the outlet; but valid neighbors draining into
the outlet are still traced, so the mask is the degenerate one-cell watershed
exactly in the case that every in-bounds neighbor of the outlet is nodata. -/
theorem trace_watershed_d8_nodata_outlet_amended
    (g : List (List Int)) (outlet_row outlet_col : Nat) (nd : Int)
    (hor : outlet_row < numRows g) (hoc : outlet_col < numCols g)
    (hout : fget g outlet_row outlet_col = nd)
    (hnb : ∀ e ∈ d8_lookup,
      ((outlet_row : Int) + e.2.1 < 0 ∨ (numRows g : Int) ≤ (outlet_row : Int) + e.2.1 ∨
       (outlet_col : Int) + e.2.2 < 0 ∨ (numCols g : Int) ≤ (outlet_col : Int) + e.2.2) ∨
      fget g ((outlet_row : Int) + e.2.1).toNat ((outlet_col : Int) + e.2.2).toNat = nd) :
    trace_watershed_d8 g outlet_row outlet_col (some nd) =
      renderMask (numRows g) (numCols g) {(outlet_row, outlet_col)} := by
  have hvn := visitNeighbors_all_nodata g (numRows g) (numCols g) nd
    outlet_row outlet_col {(outlet_row, outlet_col)} hnb
  obtain ⟨k, hk⟩ : ∃ k, 2 * numRows g * numCols g + 1 = k + 1 + 1 := by
    have hpos : 0 < numRows g * numCols g := Nat.mul_pos (by omega) (by omega)
    exact ⟨2 * numRows g * numCols g - 1, by rw [Nat.mul_assoc]; omega⟩
  simp only [trace_watershed_d8]
  rw [hk]
  simp only [bfsLoop, hvn, List.append_nil, List.nil_append]

/-- C4 witness: a 1x1 grid whose only cell (the outlet) is nodata gives the
one-cell watershed. -/
theorem trace_watershed_d8_nodata_outlet_amended_witness :
    trace_watershed_d8 [[5]] 0 0 (some 5) = renderMask 1 1 {(0, 0)} :=
  trace_watershed_d8_nodata_outlet_amended [[5]] 0 0 5
    (by decide) (by decide) (by decide) (by decide)

/-! ## Theorems about the result cache -/

/-- C8.  Cache round-trip and clear, with caching enabled: set followed by
get on the same key returns the stored value, and after clear every get
misses (the cache files are exactly the *.json files the clear removes). -/
theorem cache_roundtrip_and_clear (md5hex : String → String)
    (fs : CacheDirState) (k : String) (v : Json) :
    get_cached_watershed true md5hex (cache_watershed true md5hex fs k v) k = some v ∧
    (∀ (fs2 : CacheDirState) (k2 : String),
      get_cached_watershed true md5hex (clear_cache true fs2) k2 = none) := by
  constructor
  · simp [get_cached_watershed, cache_watershed, fileCacheGet, fileCacheSet]
  · intro fs2 k2
    simp only [get_cached_watershed, clear_cache, if_neg (by simp : ¬(true = false)),
      fileCacheGet, fileCacheClear]
    rw [Option.map_eq_none', List.find?_eq_none]
    intro e he
    have hq := (List.mem_filter.mp he).2
    simp only [Bool.not_eq_true', decide_eq_false_iff_not] at hq
    simp only [decide_eq_true_eq]
    intro hp
    exact hq (by rw [hp]; rfl)

/-- C9 counterexample: for the Redis backend, a client I/O failure during get
or set propagates to the caller instead of degrading to a miss or a
best-effort write. -/
theorem redis_cache_propagates_counterexample :
    redisCacheGetEx (Except.error "connection refused") (fun _ => Except.error "unused") =
      Except.error "connection refused" ∧
    redisCacheSetEx (Except.error "connection refused") =
      Except.error "connection refused" :=
  ⟨rfl, rfl⟩

/-- C9 amended: the file backend contains read errors (get returns a miss)
and errors of the guarded cache-file write (set returns normally), but a
failure of the directory creation that precedes the try block propagates from
its set; the Redis backend suppresses only JSON decode failures on read,
while client I/O errors propagate from its get and set. -/
theorem cache_error_containment_amended :
    (∀ (b : Bool) (readOp : Except String Json), ∃ o, fileCacheGetEx b readOp = Except.ok o) ∧
    (∀ e : String, fileCacheGetEx true (Except.error e) = Except.ok none) ∧
    (∀ writeOp : Except String Unit, fileCacheSetEx (Except.ok ()) writeOp = Except.ok ()) ∧
    (∀ (e : String) (writeOp : Except String Unit),
      fileCacheSetEx (Except.error e) writeOp = Except.error e) ∧
    (∀ raw e : String,
      redisCacheGetEx (Except.ok (some raw)) (fun _ => Except.error e) = Except.ok none) := by
  refine ⟨?_, ?_, ?_, ?_, ?_⟩
  · intro b readOp
    cases b with
    | false => exact ⟨none, rfl⟩
    | true =>
      cases readOp with
      | ok a => exact ⟨some a, rfl⟩
      | error e => exact ⟨none, rfl⟩
  · intro e
    rfl
  · intro writeOp
    cases writeOp with
    | ok a => cases a; rfl
    | error e => rfl
  · intro e writeOp
    rfl
  · intro raw e
    rfl

/-! ## Theorems about pour-point snapping -/

/-- C7.  Graceful degradation of snapping: when the flow-accumulation raster
is absent, or the window read around the point is empty, or it contains only
nodata cells, the snapper returns (it is total, it cannot raise) with the
original point unchanged, snapped=false, and a reason string. -/
theorem snap_degrades_gracefully (env : SnapEnv) (lat lon : ℚ)
    (hcause : env.fileExists = false ∨ windowSize (snapWindow env) = 0 ∨
      ∃ nd, env.nodata = some nd ∧
        (snapWindow env).all (fun row => row.all (fun v => v == nd)) = true) :
    (snap_pour_point_sync env lat lon).lon = lon ∧
    (snap_pour_point_sync env lat lon).lat = lat ∧
    (snap_pour_point_sync env lat lon).snapped = false ∧
    (snap_pour_point_sync env lat lon).reason.isSome = true := by
  rcases hcause with h | h | ⟨nd, hnd, hall⟩
  · simp [snap_pour_point_sync, h]
  · by_cases hf : env.fileExists = false
    · simp [snap_pour_point_sync, hf]
    · simp [snap_pour_point_sync, hf, h]
  · by_cases hf : env.fileExists = false
    · simp [snap_pour_point_sync, hf]
    · have hnodata : allNodata (snapWindow env) env.nodata = true := by
        rw [allNodata.eq_def, hnd]
        exact hall
      simp [snap_pour_point_sync, hf, hnodata]

/-- C7 witness: an absent flow-accumulation file returns the original point
unsnapped with a reason. -/
theorem snap_degrades_gracefully_witness :
    (snap_pour_point_sync ⟨false, 0, 0, [], none, 0, 0, 1, fun _ _ => (0, 0)⟩ 7 8).lon = 8 ∧
    (snap_pour_point_sync ⟨false, 0, 0, [], none, 0, 0, 1, fun _ _ => (0, 0)⟩ 7 8).lat = 7 ∧
    (snap_pour_point_sync ⟨false, 0, 0, [], none, 0, 0, 1, fun _ _ => (0, 0)⟩ 7 8).snapped = false ∧
    (snap_pour_point_sync ⟨false, 0, 0, [], none, 0, 0, 1, fun _ _ => (0, 0)⟩ 7 8).reason.isSome = true :=
  snap_degrades_gracefully ⟨false, 0, 0, [], none, 0, 0, 1, fun _ _ => (0, 0)⟩ 7 8
    (Or.inl rfl)

/-- C10.  The snap radius in pixels is clamped to at least 1 for every radius
in meters (including 0), CRS kind, latitude and resolution; consequently the
search window bounds of the snapper (max 0 (row-pr), min height (row+pr+1)
and likewise for columns) span at least 3 cells in each dimension whenever
the pour-point cell is at least one cell away from every raster edge. -/
theorem calculate_snap_radius_pixels_at_least_one
    (radius_meters : ℤ) (isWgs84 : Bool) (center_lat : ℝ) (pixel_size : ℝ × ℝ) :
    1 ≤ calculate_snap_radius_pixels radius_meters isWgs84 center_lat pixel_size ∧
    ∀ (height width row col : ℤ),
      1 ≤ row → row + 1 < height → 1 ≤ col → col + 1 < width →
      3 ≤ min height (row + calculate_snap_radius_pixels radius_meters isWgs84 center_lat pixel_size + 1) -
          max 0 (row - calculate_snap_radius_pixels radius_meters isWgs84 center_lat pixel_size) ∧
      3 ≤ min width (col + calculate_snap_radius_pixels radius_meters isWgs84 center_lat pixel_size + 1) -
          max 0 (col - calculate_snap_radius_pixels radius_meters isWgs84 center_lat pixel_size) := by
  have h1 : 1 ≤ calculate_snap_radius_pixels radius_meters isWgs84 center_lat pixel_size := by
    cases isWgs84 with
    | false => simp [calculate_snap_radius_pixels, le_max_left]
    | true => simp [calculate_snap_radius_pixels, le_max_left]
  refine ⟨h1, ?_⟩
  intro height width row col h2 h3 h4 h5
  constructor <;> omega

/-- C10 witness: with a zero-meter requested radius on a geographic raster
the pixel radius is still at least 1 and a pour point two cells inside a
100x100 raster gets a window at least 3 cells wide in both dimensions. -/
theorem calculate_snap_radius_pixels_at_least_one_witness :
    1 ≤ calculate_snap_radius_pixels 0 true 45 (1/10000, 1/10000) ∧
    3 ≤ min 100 (5 + calculate_snap_radius_pixels 0 true 45 (1/10000, 1/10000) + 1) -
        max 0 (5 - calculate_snap_radius_pixels 0 true 45 (1/10000, 1/10000)) ∧
    3 ≤ min 100 (7 + calculate_snap_radius_pixels 0 true 45 (1/10000, 1/10000) + 1) -
        max 0 (7 - calculate_snap_radius_pixels 0 true 45 (1/10000, 1/10000)) := by
  obtain ⟨h1, h2⟩ := calculate_snap_radius_pixels_at_least_one 0 true 45 (1/10000, 1/10000)
  obtain ⟨ha, hb⟩ := h2 100 100 5 7 (by norm_num) (by norm_num) (by norm_num) (by norm_num)
  exact ⟨h1, ha, hb⟩

/-! ## Theorem about the snap distance -/

/-- C6 (code bug).  The snap distance the code computes is the planar
Euclidean distance between the EPSG:6933-projected points, which differs from
the great-circle haversine distance that both the docstring of
calculate_distance_meters and the spec promise: at the pair (0,0)-(0,60) the
code model yields the sphere radius R = 6378137 while the haversine distance
is R times pi over 3. -/
theorem calculate_distance_meters_not_haversine :
    calculate_distance_meters 0 0 0 60 ≠ haversineDistanceSpec 0 0 0 60 := by
  have h3 : Real.sqrt 3 / 2 ≠ 0 := ne_of_gt (by positivity)
  have hproj0 : epsg6933Project 0 0 = (0, 0) := by
    unfold epsg6933Project
    norm_num
  have hproj60 : epsg6933Project 0 60 = (0, 6378137) := by
    unfold epsg6933Project
    have h60 : (60 : ℝ) * Real.pi / 180 = Real.pi / 3 := by ring
    rw [h60, Real.sin_pi_div_three, Real.cos_pi_div_six, Prod.mk.injEq]
    constructor
    · norm_num
    · rw [mul_div_assoc, div_self h3, mul_one]
  have hcode : calculate_distance_meters 0 0 0 60 = 6378137 := by
    unfold calculate_distance_meters
    rw [hproj0, hproj60]
    have hsq : ((0 : ℝ) - 0) ^ 2 + ((6378137 : ℝ) - 0) ^ 2 = 6378137 ^ 2 := by norm_num
    simp only []
    rw [hsq, Real.sqrt_sq (by norm_num)]
  have hspec : haversineDistanceSpec 0 0 0 60 = 2 * 6378137 * (Real.pi / 6) := by
    unfold haversineDistanceSpec
    have e1 : ((60 : ℝ) * Real.pi / 180 - 0 * Real.pi / 180) / 2 = Real.pi / 6 := by ring
    have e3 : ((0 : ℝ) * Real.pi / 180 - 0 * Real.pi / 180) / 2 = 0 := by ring
    rw [e1, e3, Real.sin_zero, Real.sin_pi_div_six]
    have e4 : ((1 : ℝ) / 2) ^ 2 +
        Real.cos (0 * Real.pi / 180) * Real.cos (60 * Real.pi / 180) * 0 ^ 2 =
        (1 / 2) ^ 2 := by ring
    rw [e4, Real.sqrt_sq (by norm_num : (0 : ℝ) ≤ 1 / 2)]
    rw [show (1 : ℝ) / 2 = Real.sin (Real.pi / 6) from Real.sin_pi_div_six.symm]
    rw [Real.arcsin_sin (by nlinarith [Real.pi_pos]) (by nlinarith [Real.pi_pos])]
  intro h
  rw [hcode, hspec] at h
  nlinarith [Real.pi_gt_three]

/-! ## Theorems about the masked argmax scan -/

/-- Full characterization of the linear argmax scan: either nothing in the
list is valid and the running best is returned unchanged; or the result picks
a list element that is valid, maximal among the valid elements, strictly
greater than every valid element before it and strictly greater than the
running best; or the running best survives and dominates every valid list
element. -/
theorem maArgmaxGo_spec (valid : Int → Bool) :
    ∀ (l : List Int) (i : Nat) (best : Option (Nat × Int)),
      (maArgmaxGo valid l i best = best ∧ ∀ v ∈ l, valid v = false) ∨
      (∃ j v, maArgmaxGo valid l i best = some (i + j, v) ∧ l.get? j = some v ∧
        valid v = true ∧
        (∀ j2 v2, l.get? j2 = some v2 → valid v2 = true → v2 ≤ v) ∧
        (∀ j2 v2, j2 < j → l.get? j2 = some v2 → valid v2 = true → v2 < v) ∧
        (∀ bi bv, best = some (bi, bv) → bv < v)) ∨
      (∃ bi bv, best = some (bi, bv) ∧ maArgmaxGo valid l i best = some (bi, bv) ∧
        ∀ j2 v2, l.get? j2 = some v2 → valid v2 = true → v2 ≤ bv) := by
  intro l
  induction l with
  | nil =>
    intro i best
    exact Or.inl ⟨rfl, by simp⟩
  | cons v rest ih =>
    intro i best
    by_cases hv : valid v = true
    · cases best with
      | none =>
        have hstep : maArgmaxGo valid (v :: rest) i none =
            maArgmaxGo valid rest (i + 1) (some (i, v)) := by
          simp [maArgmaxGo, hv]
        rcases ih (i + 1) (some (i, v)) with ⟨heq, hall⟩ |
            ⟨j, u, heq, hget, hu, hle, hlt, hbest⟩ | ⟨bi, bv, hbeq, heq, hle⟩
        · refine Or.inr (Or.inl ⟨0, v, ?_, rfl, hv, ?_, ?_, ?_⟩)
          · rw [hstep, heq, Nat.add_zero]
          · intro j2 v2 hget2 hval2
            cases j2 with
            | zero =>
              rw [List.get?_cons_zero] at hget2
              cases hget2
              exact le_refl v
            | succ m =>
              rw [List.get?_cons_succ] at hget2
              exact absurd (hall v2 (List.get?_mem hget2)) (by simp [hval2])
          · intro j2 v2 hj2
            omega
          · intro bi bv hbeq
            cases hbeq
        · refine Or.inr (Or.inl ⟨j + 1, u, ?_, ?_, hu, ?_, ?_, ?_⟩)
          · rw [hstep, heq]
            congr 2
            omega
          · rw [List.get?_cons_succ]
            exact hget
          · intro j2 v2 hget2 hval2
            cases j2 with
            | zero =>
              rw [List.get?_cons_zero] at hget2
              cases hget2
              exact le_of_lt (hbest i v rfl)
            | succ m =>
              rw [List.get?_cons_succ] at hget2
              exact hle m v2 hget2 hval2
          · intro j2 v2 hj2 hget2 hval2
            cases j2 with
            | zero =>
              rw [List.get?_cons_zero] at hget2
              cases hget2
              exact hbest i v rfl
            | succ m =>
              rw [List.get?_cons_succ] at hget2
              exact hlt m v2 (by omega) hget2 hval2
          · intro bi bv hbeq
            cases hbeq
        · obtain ⟨h1, h2⟩ : bi = i ∧ bv = v := by
            injection hbeq with h
            injection h with h1 h2
            exact ⟨h1.symm, h2.symm⟩
          refine Or.inr (Or.inl ⟨0, v, ?_, rfl, hv, ?_, ?_, ?_⟩)
          · rw [hstep, heq, ← hbeq, Nat.add_zero]
          · intro j2 v2 hget2 hval2
            cases j2 with
            | zero =>
              rw [List.get?_cons_zero] at hget2
              cases hget2
              exact le_refl v
            | succ m =>
              rw [List.get?_cons_succ] at hget2
              have := hle m v2 hget2 hval2
              omega
          · intro j2 v2 hj2
            omega
          · intro bi2 bv2 hbeq2
            cases hbeq2
      | some b =>
        obtain ⟨bi0, bv0⟩ := b
        by_cases hlt0 : bv0 < v
        · have hstep : maArgmaxGo valid (v :: rest) i (some (bi0, bv0)) =
              maArgmaxGo valid rest (i + 1) (some (i, v)) := by
            simp [maArgmaxGo, hv, hlt0]
          rcases ih (i + 1) (some (i, v)) with ⟨heq, hall⟩ |
              ⟨j, u, heq, hget, hu, hle, hlt, hbest⟩ | ⟨bi, bv, hbeq, heq, hle⟩
          · refine Or.inr (Or.inl ⟨0, v, ?_, rfl, hv, ?_, ?_, ?_⟩)
            · rw [hstep, heq, Nat.add_zero]
            · intro j2 v2 hget2 hval2
              cases j2 with
              | zero =>
                rw [List.get?_cons_zero] at hget2
                cases hget2
                exact le_refl v
              | succ m =>
                rw [List.get?_cons_succ] at hget2
                exact absurd (hall v2 (List.get?_mem hget2)) (by simp [hval2])
            · intro j2 v2 hj2
              omega
            · intro bi bv hbeq
              injection hbeq with h
              injection h with h1 h2
              omega
          · refine Or.inr (Or.inl ⟨j + 1, u, ?_, ?_, hu, ?_, ?_, ?_⟩)
            · rw [hstep, heq]
              congr 2
              omega
            · rw [List.get?_cons_succ]
              exact hget
            · intro j2 v2 hget2 hval2
              cases j2 with
              | zero =>
                rw [List.get?_cons_zero] at hget2
                cases hget2
                exact le_of_lt (hbest i v rfl)
              | succ m =>
                rw [List.get?_cons_succ] at hget2
                exact hle m v2 hget2 hval2
            · intro j2 v2 hj2 hget2 hval2
              cases j2 with
              | zero =>
                rw [List.get?_cons_zero] at hget2
                cases hget2
                exact hbest i v rfl
              | succ m =>
                rw [List.get?_cons_succ] at hget2
                exact hlt m v2 (by omega) hget2 hval2
            · intro bi bv hbeq
              injection hbeq with h
              injection h with h1 h2
              subst h2
              exact lt_trans hlt0 (hbest i v rfl)
          · obtain ⟨h1, h2⟩ : bi = i ∧ bv = v := by
              injection hbeq with h
              injection h with h1 h2
              exact ⟨h1.symm, h2.symm⟩
            refine Or.inr (Or.inl ⟨0, v, ?_, rfl, hv, ?_, ?_, ?_⟩)
            · rw [hstep, heq, ← hbeq, Nat.add_zero]
            · intro j2 v2 hget2 hval2
              cases j2 with
              | zero =>
                rw [List.get?_cons_zero] at hget2
                cases hget2
                exact le_refl v
              | succ m =>
                rw [List.get?_cons_succ] at hget2
                have := hle m v2 hget2 hval2
                omega
            · intro j2 v2 hj2
              omega
            · intro bi2 bv2 hbeq2
              injection hbeq2 with h
              injection h with h3 h4
              omega
        · have hstep : maArgmaxGo valid (v :: rest) i (some (bi0, bv0)) =
              maArgmaxGo valid rest (i + 1) (some (bi0, bv0)) := by
            simp [maArgmaxGo, hv, hlt0]
          rcases ih (i + 1) (some (bi0, bv0)) with ⟨heq, hall⟩ |
              ⟨j, u, heq, hget, hu, hle, hlt, hbest⟩ | ⟨bi, bv, hbeq, heq, hle⟩
          · refine Or.inr (Or.inr ⟨bi0, bv0, rfl, ?_, ?_⟩)
            · rw [hstep, heq]
            · intro j2 v2 hget2 hval2
              cases j2 with
              | zero =>
                rw [List.get?_cons_zero] at hget2
                cases hget2
                omega
              | succ m =>
                rw [List.get?_cons_succ] at hget2
                exact absurd (hall v2 (List.get?_mem hget2)) (by simp [hval2])
          · have hbv0 : bv0 < u := hbest bi0 bv0 rfl
            refine Or.inr (Or.inl ⟨j + 1, u, ?_, ?_, hu, ?_, ?_, ?_⟩)
            · rw [hstep, heq]
              congr 2
              omega
            · rw [List.get?_cons_succ]
              exact hget
            · intro j2 v2 hget2 hval2
              cases j2 with
              | zero =>
                rw [List.get?_cons_zero] at hget2
                cases hget2
                omega
              | succ m =>
                rw [List.get?_cons_succ] at hget2
                exact hle m v2 hget2 hval2
            · intro j2 v2 hj2 hget2 hval2
              cases j2 with
              | zero =>
                rw [List.get?_cons_zero] at hget2
                cases hget2
                omega
              | succ m =>
                rw [List.get?_cons_succ] at hget2
                exact hlt m v2 (by omega) hget2 hval2
            · intro bi bv hbeq
              injection hbeq with h
              injection h with h1 h2
              omega
          · obtain ⟨h1, h2⟩ : bi = bi0 ∧ bv = bv0 := by
              injection hbeq with h
              injection h with h1 h2
              exact ⟨h1.symm, h2.symm⟩
            refine Or.inr (Or.inr ⟨bi0, bv0, rfl, ?_, ?_⟩)
            · rw [hstep, heq, ← hbeq]
            · intro j2 v2 hget2 hval2
              cases j2 with
              | zero =>
                rw [List.get?_cons_zero] at hget2
                cases hget2
                omega
              | succ m =>
                rw [List.get?_cons_succ] at hget2
                have := hle m v2 hget2 hval2
                omega
    · have hstep : maArgmaxGo valid (v :: rest) i best =
          maArgmaxGo valid rest (i + 1) best := by
        simp [maArgmaxGo, hv]
      rcases ih (i + 1) best with ⟨heq, hall⟩ |
          ⟨j, u, heq, hget, hu, hle, hlt, hbest⟩ | ⟨bi, bv, hbeq, heq, hle⟩
      · refine Or.inl ⟨by rw [hstep, heq], ?_⟩
        intro v2 hv2
        rcases List.mem_cons.mp hv2 with h | h
        · subst h
          simpa using hv
        · exact hall v2 h
      · refine Or.inr (Or.inl ⟨j + 1, u, ?_, ?_, hu, ?_, ?_, hbest⟩)
        · rw [hstep, heq]
          congr 2
          omega
        · rw [List.get?_cons_succ]
          exact hget
        · intro j2 v2 hget2 hval2
          cases j2 with
          | zero =>
            rw [List.get?_cons_zero] at hget2
            cases hget2
            exact absurd hval2 (by simpa using hv)
          | succ m =>
            rw [List.get?_cons_succ] at hget2
            exact hle m v2 hget2 hval2
        · intro j2 v2 hj2 hget2 hval2
          cases j2 with
          | zero =>
            rw [List.get?_cons_zero] at hget2
            cases hget2
            exact absurd hval2 (by simpa using hv)
          | succ m =>
            rw [List.get?_cons_succ] at hget2
            exact hlt m v2 (by omega) hget2 hval2
      · refine Or.inr (Or.inr ⟨bi, bv, hbeq, by rw [hstep, heq], ?_⟩)
        intro j2 v2 hget2 hval2
        cases j2 with
        | zero =>
          rw [List.get?_cons_zero] at hget2
          cases hget2
          exact absurd hval2 (by simpa using hv)
        | succ m =>
          rw [List.get?_cons_succ] at hget2
          exact hle m v2 hget2 hval2

/-- The masked argmax on a list with at least one valid element picks a valid
element that is maximal, and strictly above every valid element at a smaller
index (first occurrence on ties). -/
theorem maArgmax_spec (valid : Int → Bool) (flat : List Int)
    (hex : ∃ j v, flat.get? j = some v ∧ valid v = true) :
    ∃ v, flat.get? (maArgmax valid flat) = some v ∧ valid v = true ∧
      (∀ j2 v2, flat.get? j2 = some v2 → valid v2 = true → v2 ≤ v) ∧
      (∀ j2 v2, j2 < maArgmax valid flat → flat.get? j2 = some v2 →
        valid v2 = true → v2 < v) := by
  rcases maArgmaxGo_spec valid flat 0 none with ⟨heq, hall⟩ |
      ⟨j, v, heq, hget, hv, hle, hlt, _⟩ | ⟨bi, bv, hbeq, _, _⟩
  · obtain ⟨j, v, hget, hv⟩ := hex
    exact absurd (hall v (List.get?_mem hget)) (by simp [hv])
  · have hidx : maArgmax valid flat = j := by
      unfold maArgmax
      rw [heq]
      simp
    rw [hidx]
    exact ⟨v, hget, hv, hle, hlt⟩
  · cases hbeq

/-- Every row of a window slice of a grid with uniform row length width has
the same length. -/
theorem windowRead_row_length (grid : List (List Int)) (width : Nat)
    (hwf : ∀ row ∈ grid, row.length = width) (rMin rMax cMin cMax : Int) :
    ∀ row ∈ windowRead grid rMin rMax cMin cMax,
      row.length = min (cMax - cMin).toNat (width - cMin.toNat) := by
  intro row hrow
  unfold windowRead at hrow
  obtain ⟨row0, hmem, rfl⟩ := List.mem_map.mp hrow
  have hrow0 : row0 ∈ grid := List.mem_of_mem_drop (List.mem_of_mem_take hmem)
  rw [List.length_take, List.length_drop, hwf row0 hrow0]

/-- A cell read that succeeds has its column index inside the uniform row
length. -/
theorem wGet_col_lt (W : List (List Int)) (n : Nat)
    (hL : ∀ row ∈ W, row.length = n) (r c : Nat) (u : Int)
    (h : wGet W r c = some u) : c < n := by
  unfold wGet at h
  rcases Option.bind_eq_some.mp h with ⟨row, hrow, hcell⟩
  by_contra hc
  push_neg at hc
  have hnone : row.get? c = none :=
    List.get?_eq_none.mpr (by rw [hL row (List.get?_mem hrow)]; exact hc)
  rw [hnone] at hcell
  cases hcell

/-- A window with a readable cell has nonzero size. -/
theorem windowSize_ne_zero (W : List (List Int)) (r c : Nat) (u : Int)
    (h : wGet W r c = some u) : windowSize W ≠ 0 := by
  unfold wGet at h
  rcases Option.bind_eq_some.mp h with ⟨row, hrow, hcell⟩
  have hrow_mem : row ∈ W := List.get?_mem hrow
  have hc : c < row.length := by
    by_contra hc
    push_neg at hc
    rw [List.get?_eq_none.mpr hc] at hcell
    cases hcell
  have hmem : row.length ∈ W.map List.length := List.mem_map_of_mem _ hrow_mem
  have hle := List.single_le_sum (fun (x : Nat) _ => Nat.zero_le x) _ hmem
  unfold windowSize
  omega

/-- Reading the row-major flattening of a window with uniform positive row
length n at index i is reading the window at (i / n, i % n). -/
theorem flatten_wGet (n : Nat) (hpos : 0 < n) :
    ∀ (W : List (List Int)), (∀ row ∈ W, row.length = n) →
    ∀ i, W.flatten.get? i = wGet W (i / n) (i % n) := by
  intro W
  induction W with
  | nil =>
    intro _ i
    simp [wGet]
  | cons row rest ih =>
    intro hwf i
    have hrow : row.length = n := hwf row (List.mem_cons_self row rest)
    have hrest : ∀ r ∈ rest, r.length = n :=
      fun r hr => hwf r (List.mem_cons_of_mem row hr)
    rw [List.flatten_cons]
    by_cases hi : i < n
    · rw [List.get?_append (by rw [hrow]; exact hi)]
      rw [Nat.div_eq_of_lt hi, Nat.mod_eq_of_lt hi]
      simp [wGet]
    · push_neg at hi
      rw [List.get?_append_right (by rw [hrow]; exact hi)]
      rw [hrow]
      have h1 : i / n = (i - n) / n + 1 := by
        conv_lhs => rw [show i = (i - n) + n by omega]
        rw [Nat.add_div_right _ hpos]
      have h2 : i % n = (i - n) % n := by
        conv_lhs => rw [show i = (i - n) + n by omega]
        rw [Nat.add_mod_right]
      rw [h1, h2, ih hrest (i - n)]
      simp [wGet]


/-- Evaluation of the snapper on the successful branch: file present and the
window guard not taken. -/
theorem snap_pour_point_sync_snapped_eval (env : SnapEnv) (lat lon : ℚ)
    (hfile : env.fileExists = true)
    (hcond : ¬(windowSize (snapWindow env) = 0 ∨
      allNodata (snapWindow env) env.nodata = true)) :
    snap_pour_point_sync env lat lon =
      ⟨(env.cellCenter ((snapRowMin env).toNat + maArgmax (fun v => !(isNodata env.nodata v)) (snapWindow env).flatten / wCols (snapWindow env))
          ((snapColMin env).toNat + maArgmax (fun v => !(isNodata env.nodata v)) (snapWindow env).flatten % wCols (snapWindow env))).1,
       (env.cellCenter ((snapRowMin env).toNat + maArgmax (fun v => !(isNodata env.nodata v)) (snapWindow env).flatten / wCols (snapWindow env))
          ((snapColMin env).toNat + maArgmax (fun v => !(isNodata env.nodata v)) (snapWindow env).flatten % wCols (snapWindow env))).2,
       true, none,
       wGet (snapWindow env) (maArgmax (fun v => !(isNodata env.nodata v)) (snapWindow env).flatten / wCols (snapWindow env)) (maArgmax (fun v => !(isNodata env.nodata v)) (snapWindow env).flatten % wCols (snapWindow env))⟩ := by
  unfold snap_pour_point_sync
  rw [if_neg (by simp [hfile])]
  simp only []
  rw [if_neg hcond]

/-- C5.  Snapped-cell selection: whenever the flow-accumulation raster is
present and the window the snapper reads contains at least one valid
(non-nodata) cell, the snapper reports snapped=true and the coordinates of
the center of a window cell that holds the maximum accumulation among valid
cells, the first such cell in row-major scan order on ties; the reported
flow_accumulation is that maximum value. -/
theorem snap_selects_max_accumulation (env : SnapEnv) (lat lon : ℚ)
    (hfile : env.fileExists = true)
    (hwf : ∀ row ∈ env.grid, row.length = env.width)
    (hvalid : ∃ r c v, wGet (snapWindow env) r c = some v ∧
      isNodata env.nodata v = false) :
    ∃ mr mc v,
      wGet (snapWindow env) mr mc = some v ∧
      isNodata env.nodata v = false ∧
      (∀ r c u, wGet (snapWindow env) r c = some u →
        isNodata env.nodata u = false → u ≤ v) ∧
      (∀ r c u, (r < mr ∨ (r = mr ∧ c < mc)) → wGet (snapWindow env) r c = some u →
        isNodata env.nodata u = false → u < v) ∧
      (snap_pour_point_sync env lat lon).snapped = true ∧
      (snap_pour_point_sync env lat lon).lon =
        (env.cellCenter ((snapRowMin env).toNat + mr) ((snapColMin env).toNat + mc)).1 ∧
      (snap_pour_point_sync env lat lon).lat =
        (env.cellCenter ((snapRowMin env).toNat + mr) ((snapColMin env).toNat + mc)).2 ∧
      (snap_pour_point_sync env lat lon).reason = none ∧
      (snap_pour_point_sync env lat lon).flow_accumulation = some v := by
  obtain ⟨r0, c0, v0, hget0, hval0⟩ := hvalid
  have hL0 := windowRead_row_length env.grid env.width hwf
    (snapRowMin env) (snapRowMax env) (snapColMin env) (snapColMax env)
  have hLn : ∀ row ∈ snapWindow env, row.length = wCols (snapWindow env) := by
    intro row hrow
    cases hWc : snapWindow env with
    | nil =>
      rw [hWc] at hrow
      cases hrow
    | cons h t =>
      have hh : h ∈ snapWindow env := by
        rw [hWc]
        exact List.mem_cons_self h t
      have h1 := hL0 row hrow
      have h2 := hL0 h hh
      unfold wCols
      simp only [List.head?_cons, Option.getD_some]
      rw [h1, h2]
  have hc0 : c0 < wCols (snapWindow env) := wGet_col_lt _ _ hLn r0 c0 v0 hget0
  have hpos : 0 < wCols (snapWindow env) := lt_of_le_of_lt (Nat.zero_le c0) hc0
  have hflat := flatten_wGet (wCols (snapWindow env)) hpos (snapWindow env) hLn
  have hcellindex : ∀ r c u, wGet (snapWindow env) r c = some u →
      (snapWindow env).flatten.get? (wCols (snapWindow env) * r + c) = some u := by
    intro r c u hu
    have hc : c < wCols (snapWindow env) := wGet_col_lt _ _ hLn r c u hu
    rw [hflat (wCols (snapWindow env) * r + c), Nat.mul_add_div hpos, Nat.mul_add_mod,
      Nat.div_eq_of_lt hc, Nat.add_zero, Nat.mod_eq_of_lt hc]
    exact hu
  have hex : ∃ j v, (snapWindow env).flatten.get? j = some v ∧
      (fun v => !(isNodata env.nodata v)) v = true :=
    ⟨wCols (snapWindow env) * r0 + c0, v0, hcellindex r0 c0 v0 hget0, by simp [hval0]⟩
  obtain ⟨v, hgetv, hvv, hlev, hltv⟩ :=
    maArgmax_spec (fun v => !(isNodata env.nodata v)) (snapWindow env).flatten hex
  have hsz := windowSize_ne_zero _ r0 c0 v0 hget0
  have hnall : ¬(allNodata (snapWindow env) env.nodata = true) := by
    intro hall
    unfold allNodata at hall
    cases hnd : env.nodata with
    | none =>
      rw [hnd] at hall
      cases hall
    | some nd =>
      rw [hnd] at hall hval0
      unfold wGet at hget0
      rcases Option.bind_eq_some.mp hget0 with ⟨row, hrow, hcell⟩
      have hrowmem : row ∈ snapWindow env := List.get?_mem hrow
      have hvmem : v0 ∈ row := List.get?_mem hcell
      have hcontra := (List.all_eq_true.mp ((List.all_eq_true.mp hall) row hrowmem)) v0 hvmem
      simp only [isNodata] at hval0
      rw [hval0] at hcontra
      cases hcontra
  have hcond : ¬(windowSize (snapWindow env) = 0 ∨
      allNodata (snapWindow env) env.nodata = true) := by
    rintro (h | h)
    exacts [hsz h, hnall h]
  have hres := snap_pour_point_sync_snapped_eval env lat lon hfile hcond
  refine ⟨maArgmax (fun v => !(isNodata env.nodata v)) (snapWindow env).flatten / wCols (snapWindow env), maArgmax (fun v => !(isNodata env.nodata v)) (snapWindow env).flatten % wCols (snapWindow env), v, ?_, ?_, ?_, ?_, ?_, ?_, ?_, ?_, ?_⟩
  · rw [← hflat (maArgmax (fun v => !(isNodata env.nodata v)) (snapWindow env).flatten)]
    exact hgetv
  · simpa using hvv
  · intro r c u hu hval
    exact hlev (wCols (snapWindow env) * r + c) u (hcellindex r c u hu) (by simp [hval])
  · intro r c u hrc hu hval
    have hc : c < wCols (snapWindow env) := wGet_col_lt _ _ hLn r c u hu
    have hk_eq := Nat.div_add_mod (maArgmax (fun v => !(isNodata env.nodata v)) (snapWindow env).flatten) (wCols (snapWindow env))
    have hidx : wCols (snapWindow env) * r + c < maArgmax (fun v => !(isNodata env.nodata v)) (snapWindow env).flatten := by
      rcases hrc with h | ⟨he, hc2⟩
      · calc wCols (snapWindow env) * r + c
            < wCols (snapWindow env) * r + wCols (snapWindow env) := by omega
          _ = wCols (snapWindow env) * (r + 1) := by ring
          _ ≤ wCols (snapWindow env) * (maArgmax (fun v => !(isNodata env.nodata v)) (snapWindow env).flatten / wCols (snapWindow env)) := Nat.mul_le_mul_left _ (by omega)
          _ ≤ wCols (snapWindow env) * (maArgmax (fun v => !(isNodata env.nodata v)) (snapWindow env).flatten / wCols (snapWindow env)) + maArgmax (fun v => !(isNodata env.nodata v)) (snapWindow env).flatten % wCols (snapWindow env) := Nat.le_add_right _ _
          _ = maArgmax (fun v => !(isNodata env.nodata v)) (snapWindow env).flatten := hk_eq
      · subst he
        omega
    exact hltv (wCols (snapWindow env) * r + c) u hidx (hcellindex r c u hu) (by simp [hval])
  · rw [hres]
  · rw [hres]
  · rw [hres]
  · rw [hres]
  · rw [hres]
    rw [← hflat (maArgmax (fun v => !(isNodata env.nodata v)) (snapWindow env).flatten)]
    exact hgetv


/-- C5 witness: a 2x2 all-valid flow-accumulation window with the single
maximum 5 gives a snapped result selecting that cell. -/
theorem snap_selects_max_accumulation_witness :
    ∃ mr mc v,
      wGet (snapWindow (⟨true, 2, 2, [[1, 5], [3, 2]], some 0, 0, 0, 1, fun r c => ((r : ℚ), (c : ℚ))⟩ : SnapEnv)) mr mc = some v ∧
      isNodata (⟨true, 2, 2, [[1, 5], [3, 2]], some 0, 0, 0, 1, fun r c => ((r : ℚ), (c : ℚ))⟩ : SnapEnv).nodata v = false ∧
      (∀ r c u, wGet (snapWindow (⟨true, 2, 2, [[1, 5], [3, 2]], some 0, 0, 0, 1, fun r c => ((r : ℚ), (c : ℚ))⟩ : SnapEnv)) r c = some u →
        isNodata (⟨true, 2, 2, [[1, 5], [3, 2]], some 0, 0, 0, 1, fun r c => ((r : ℚ), (c : ℚ))⟩ : SnapEnv).nodata u = false → u ≤ v) ∧
      (∀ r c u, (r < mr ∨ (r = mr ∧ c < mc)) →
        wGet (snapWindow (⟨true, 2, 2, [[1, 5], [3, 2]], some 0, 0, 0, 1, fun r c => ((r : ℚ), (c : ℚ))⟩ : SnapEnv)) r c = some u →
        isNodata (⟨true, 2, 2, [[1, 5], [3, 2]], some 0, 0, 0, 1, fun r c => ((r : ℚ), (c : ℚ))⟩ : SnapEnv).nodata u = false → u < v) ∧
      (snap_pour_point_sync (⟨true, 2, 2, [[1, 5], [3, 2]], some 0, 0, 0, 1, fun r c => ((r : ℚ), (c : ℚ))⟩ : SnapEnv) 10 20).snapped = true ∧
      (snap_pour_point_sync (⟨true, 2, 2, [[1, 5], [3, 2]], some 0, 0, 0, 1, fun r c => ((r : ℚ), (c : ℚ))⟩ : SnapEnv) 10 20).lon =
        ((⟨true, 2, 2, [[1, 5], [3, 2]], some 0, 0, 0, 1, fun r c => ((r : ℚ), (c : ℚ))⟩ : SnapEnv).cellCenter ((snapRowMin (⟨true, 2, 2, [[1, 5], [3, 2]], some 0, 0, 0, 1, fun r c => ((r : ℚ), (c : ℚ))⟩ : SnapEnv)).toNat + mr) ((snapColMin (⟨true, 2, 2, [[1, 5], [3, 2]], some 0, 0, 0, 1, fun r c => ((r : ℚ), (c : ℚ))⟩ : SnapEnv)).toNat + mc)).1 ∧
      (snap_pour_point_sync (⟨true, 2, 2, [[1, 5], [3, 2]], some 0, 0, 0, 1, fun r c => ((r : ℚ), (c : ℚ))⟩ : SnapEnv) 10 20).lat =
        ((⟨true, 2, 2, [[1, 5], [3, 2]], some 0, 0, 0, 1, fun r c => ((r : ℚ), (c : ℚ))⟩ : SnapEnv).cellCenter ((snapRowMin (⟨true, 2, 2, [[1, 5], [3, 2]], some 0, 0, 0, 1, fun r c => ((r : ℚ), (c : ℚ))⟩ : SnapEnv)).toNat + mr) ((snapColMin (⟨true, 2, 2, [[1, 5], [3, 2]], some 0, 0, 0, 1, fun r c => ((r : ℚ), (c : ℚ))⟩ : SnapEnv)).toNat + mc)).2 ∧
      (snap_pour_point_sync (⟨true, 2, 2, [[1, 5], [3, 2]], some 0, 0, 0, 1, fun r c => ((r : ℚ), (c : ℚ))⟩ : SnapEnv) 10 20).reason = none ∧
      (snap_pour_point_sync (⟨true, 2, 2, [[1, 5], [3, 2]], some 0, 0, 0, 1, fun r c => ((r : ℚ), (c : ℚ))⟩ : SnapEnv) 10 20).flow_accumulation = some v :=
  snap_selects_max_accumulation (⟨true, 2, 2, [[1, 5], [3, 2]], some 0, 0, 0, 1, fun r c => ((r : ℚ), (c : ℚ))⟩ : SnapEnv) 10 20 rfl (by decide)
    ⟨0, 0, 1, by decide, by decide⟩

end HydroMap
